import Mathlib

/-!
Verification of the JSON → DD-2977 data-mapping logic of
`JSON_TO_PDF/JSON_TO_DRAW_PDF.py`.

The Python values flowing through `build_field_values` are modelled by the
inductive type `PyVal` (JSON scalars, lists and string-keyed dicts).  Python
operations that can raise (`.get` on a non-dict, iteration over a
non-iterable) are modelled in the `Except PyErr` monad, so that the Lean
definitions raise exactly where the Python does.
-/

deriving instance DecidableEq for Except

namespace Draw

/-- A Python runtime error, as raised by the mapping code. -/
inductive PyErr where
  | attributeError
  | typeError
deriving DecidableEq, Repr

/-- A Python/JSON value: `None`, `str`, `int`, `bool`, `list`, `dict`
(dicts keyed by strings, as in parsed JSON). -/
inductive PyVal where
  | none
  | str (s : String)
  | int (n : Int)
  | bool (b : Bool)
  | list (xs : List PyVal)
  | dict (kvs : List (String × PyVal))

/-- Python truthiness: `None`, `""`, `0`, `False`, `[]`, `{}` are falsy. -/
def truthy : PyVal → Bool
  | .none => false
  | .str s => !(s == "")
  | .int n => !(n == 0)
  | .bool b => b
  | .list xs => !xs.isEmpty
  | .dict kvs => !kvs.isEmpty

/-- Python `a or b`: `a` if truthy, else `b`. -/
def pyOr (a b : PyVal) : PyVal := if truthy a then a else b

/-- Association-list lookup (first binding wins), with a default:
the semantics of `d.get(k, default)` on an actual dict. -/
def lookupD (kvs : List (String × PyVal)) (k : String) (d : PyVal) : PyVal :=
  match kvs.find? (fun p => p.1 == k) with
  | some p => p.2
  | Option.none => d

/-- Python `v.get(k, default)`: succeeds on a dict, raises
`AttributeError` on anything else. -/
def PyVal.get : PyVal → String → PyVal → Except PyErr PyVal
  | .dict kvs, k, d => .ok (lookupD kvs k d)
  | _, _, _ => .error .attributeError

/-- Total dict accessor used only in specification statements
(never raises; non-dicts yield the default). -/
def dictGetD (v : PyVal) (k : String) (d : PyVal) : PyVal :=
  match v with
  | .dict kvs => lookupD kvs k d
  | _ => d

/-- Is the value a dict? -/
def PyVal.isDict : PyVal → Bool
  | .dict _ => true
  | _ => false

/-- Python iteration `for x in v`: lists yield elements, strings yield
one-character strings, dicts yield their keys; other values raise
`TypeError`. -/
def pyIter : PyVal → Except PyErr (List PyVal)
  | .list xs => .ok xs
  | .str s => .ok (s.data.map (fun c => .str (String.mk [c])))
  | .dict kvs => .ok (kvs.map (fun p => .str p.1))
  | _ => .error .typeError

/-- Total version of `pyIter` used in specification statements. -/
def iterElems : PyVal → List PyVal
  | .list xs => xs
  | .str s => s.data.map (fun c => .str (String.mk [c]))
  | .dict kvs => kvs.map (fun p => .str p.1)
  | _ => []

/-- Does iterating the value succeed whenever it is reached
(always reached through `x or []`, so falsy values are replaced first)? -/
def iterOk (v : PyVal) : Bool := !truthy v || (pyIter v).isOk

mutual
/-- Python `repr` of a value (element rendering inside containers;
quote-escaping inside string `repr` is not modelled — no theorem below
evaluates `str()` on a container holding special characters). -/
def pyRepr : PyVal → String
  | .none => "None"
  | .str s => "'" ++ s ++ "'"
  | .int n => toString n
  | .bool b => if b then "True" else "False"
  | .list xs => "[" ++ String.intercalate ", " (pyReprList xs) ++ "]"
  | .dict kvs => "\x7b" ++ String.intercalate ", " (pyReprPairs kvs) ++ "\x7d"

def pyReprList : List PyVal → List String
  | [] => []
  | v :: vs => pyRepr v :: pyReprList vs

def pyReprPairs : List (String × PyVal) → List String
  | [] => []
  | p :: ps => ("'" ++ p.1 ++ "': " ++ pyRepr p.2) :: pyReprPairs ps
end

/-- Python `str(v)` for a non-`None` value: a string is itself, everything
else renders as its `repr`. -/
def pyStrOf : PyVal → String
  | .str s => s
  | v => pyRepr v

/-- The code points replaced by `normalize_text`
(NO-BREAK SPACE, NARROW NO-BREAK SPACE, THIN SPACE, NON-BREAKING HYPHEN). -/
def bad_spaces : List Nat := [0x00A0, 0x202F, 0x2009, 0x2011]

/-- `normalize_text`: `None` becomes `""`; any other value is coerced with
`str()` and each character whose code point is in `bad_spaces` is replaced
by an ordinary space. -/
def normalize_text (v : PyVal) : String :=
  match v with
  | .none => ""
  | v => String.mk ((pyStrOf v).data.map
      (fun c => if c.toNat ∈ bad_spaces then ' ' else c))

/-- ASCII upper-casing, the effect of Python `str.upper()` on the
enumerated codes handled by the mapper. -/
def pyUpper (s : String) : String := String.mk (s.data.map Char.toUpper)

/-- ASCII lower-casing, the effect of Python `str.lower()` on the
decision words handled by the mapper. -/
def pyLower (s : String) : String := String.mk (s.data.map Char.toLower)

/-- The code points Python `str.isspace` accepts (the characters stripped
by `str.rstrip()` with no argument). -/
def pySpaceCodes : List Nat :=
  [9, 10, 11, 12, 13, 0x1C, 0x1D, 0x1E, 0x1F, 32, 0x85, 0xA0, 0x1680,
   0x2000, 0x2001, 0x2002, 0x2003, 0x2004, 0x2005, 0x2006, 0x2007,
   0x2008, 0x2009, 0x200A, 0x2028, 0x2029, 0x202F, 0x205F, 0x3000]

/-- Python whitespace test for a character. -/
def pyIsSpace (c : Char) : Bool := c.toNat ∈ pySpaceCodes

/-- Python `s.rstrip()`: drop trailing whitespace characters. -/
def pyRstrip (s : String) : String := String.mk (s.data.rdropWhile pyIsSpace)

/-- `MAX_ROWS = 19`: DD 2977 supports `sub_1` through `sub_19`. -/
def MAX_ROWS : Nat := 19

/-- `risk_map`: risk levels to the PDF combo export values
(`['0',' '], ['1','EH'], ['2','H'], ['3','M'], ['4','L']`). -/
def risk_map : List (String × String) :=
  [("EH", "1"), ("E", "1"), ("H", "2"), ("M", "3"), ("L", "4")]

/-- Block-10 map: export names `/EH`, `/H`, `/M`, `/L` (E aliases EH). -/
def overall_map : List (String × String) :=
  [("EH", "EH"), ("E", "EH"), ("H", "H"), ("M", "M"), ("L", "L")]

/-- `m.get(k, d)` on a literal string-to-string dict. -/
def mapGetD (m : List (String × String)) (k d : String) : String :=
  match m.find? (fun p => p.1 == k) with
  | some p => p.2
  | Option.none => d

/-- Lines 97–100: `sub_name = ""` unless the `subtask` entry is a dict,
in which case `sub_name = subobj.get("name", "")`. -/
def sub_name_of (subobj : PyVal) : PyVal :=
  match subobj with
  | .dict kvs => lookupD kvs "name" (.str "")
  | _ => .str ""

/-- Lines 107–111, the CONTROL slot: if the `control` entry is a dict,
render its `values` as a bulleted, newline-joined, right-stripped block
(iteration raises on a truthy non-iterable `values`); otherwise no
assignment. -/
def ctrlFieldsE (idx : Nat) (ctrl : PyVal) :
    Except PyErr (List (String × String)) :=
  match ctrl with
  | .dict ckvs => do
      let vals := pyOr (lookupD ckvs "values" (.list [])) (.list [])
      let elems ← pyIter vals
      Except.ok [("control_" ++ toString idx,
        pyRstrip (String.join (elems.map
          (fun v => "- " ++ normalize_text v ++ "\n"))))]
  | _ => Except.ok ([] : List (String × String))

/-- Lines 116–124: the `values` list of a `how`/`who` entry
(`[]` unless the entry is a dict, else `hv.get("values", []) or []`). -/
def valuesOf (v : PyVal) : PyVal :=
  match v with
  | .dict kvs => pyOr (lookupD kvs "values" (.list [])) (.list [])
  | _ => PyVal.list []

/-- Lines 126–129, the HOW/WHO slots: assigned (newline-joined) only when
the value list is truthy; joining iterates, which raises on a truthy
non-iterable. -/
def joinedFieldsE (key : String) (vals : PyVal) :
    Except PyErr (List (String × String)) :=
  if truthy vals then do
    let elems ← pyIter vals
    Except.ok [(key, String.intercalate "\n" (elems.map normalize_text))]
  else Except.ok ([] : List (String × String))

/-- Lines 131–139, the risk slots: assigned only when the upper-cased
normalized level is non-empty, using `risk_map` with default `"0"`. -/
def riskField (key level : String) : List (String × String) :=
  if level ≠ "" then [(key, mapGetD risk_map level "0")] else []

/-- The loop body of `build_field_values` (lines 96–139): the destination
assignments contributed by one subtask record, in insertion order.
Raises exactly where the Python does (`item.get` on a non-dict item,
`how_to.get` on a truthy non-dict `how_to_implement`, iteration over a
truthy non-iterable values entry). -/
def processSubtask (idx : Nat) (item : PyVal) :
    Except PyErr (List (String × String)) := do
  let subobj ← item.get "subtask" PyVal.none
  let subEntry := ("sub_" ++ toString idx, normalize_text (sub_name_of subobj))
  let hazV ← item.get "hazard" (PyVal.str "")
  let hazEntry := ("haz_" ++ toString idx, normalize_text hazV)
  let ctrl ← item.get "control" PyVal.none
  let ctrlFields ← ctrlFieldsE idx ctrl
  let how_to := pyOr (← item.get "how_to_implement" (PyVal.dict [])) (PyVal.dict [])
  let hv ← how_to.get "how" PyVal.none
  let wv ← how_to.get "who" PyVal.none
  let howFields ← joinedFieldsE ("how_" ++ toString idx) (valuesOf hv)
  let whoFields ← joinedFieldsE ("who_" ++ toString idx) (valuesOf wv)
  let initV ← item.get "initial_risk_level" (PyVal.str "")
  let initFields := riskField ("init_risk" ++ toString idx) (pyUpper (normalize_text initV))
  let resV ← item.get "residual_risk_level" (PyVal.str "")
  let resFields := riskField ("res_risk" ++ toString idx) (pyUpper (normalize_text resV))
  Except.ok ([subEntry, hazEntry] ++ ctrlFields ++ howFields ++ whoFields
    ++ initFields ++ resFields)

/-- The subtask loop (lines 92–94): `for idx, item in enumerate(subtasks, 1)`
with `if idx > MAX_ROWS: break` at the top of the body. -/
def processSubtasks : Nat → List PyVal → Except PyErr (List (String × String))
  | _, [] => .ok []
  | idx, item :: rest =>
    if idx > MAX_ROWS then .ok []
    else do
      let rowFields ← processSubtask idx item
      let restFields ← processSubtasks (idx + 1) rest
      .ok (rowFields ++ restFields)

/-- `build_field_values` (lines 55–165): convert the JSON record into the
list of PDF `field_name -> value` assignments, in insertion order.
All destination keys are distinct, so the assignment list is an exact
model of the Python dict. -/
def build_field_values (draw_data : PyVal) :
    Except PyErr (List (String × String)) := do
  let mission ← draw_data.get "mission_task_and_description" (PyVal.str "")
  let date ← draw_data.get "date" (PyVal.str "")
  let prepared := pyOr (← draw_data.get "prepared_by" (PyVal.dict [])) (PyVal.dict [])
  let prep_name ← prepared.get "name_last_first_middle_initial" (PyVal.str "")
  let prep_rank ← prepared.get "rank_grade" (PyVal.str "")
  let prep_title ← prepared.get "duty_title_position" (PyVal.str "")
  let prep_unit ← prepared.get "unit" (PyVal.str "")
  let prep_email ← prepared.get "work_email" (PyVal.str "")
  let prep_phone ← prepared.get "telephone" (PyVal.str "")
  let prep_uic ← prepared.get "uic_cin" (PyVal.str "")
  let prep_plan ← prepared.get "training_support_or_lesson_plan_or_opord" (PyVal.str "")
  let overall_plan ← draw_data.get "overall_supervision_plan" (PyVal.str "")
  let subtasksV := pyOr (← draw_data.get "subtasks" (PyVal.list [])) (PyVal.list [])
  let subtaskItems ← pyIter subtasksV
  let rows ← processSubtasks 1 subtaskItems
  let overallV ← draw_data.get "overall_residual_risk_level" (PyVal.str "")
  let overall_json := pyUpper (normalize_text overallV)
  let overall_res := if overall_json ≠ "" then mapGetD overall_map overall_json "L"
    else "L"
  let approveV ← draw_data.get "approval_decision" (PyVal.str "")
  let approve_json := pyLower (normalize_text approveV)
  let xapp :=
    if approve_json == "approve" || approve_json == "app" || approve_json == "approved"
    then "app"
    else if approve_json == "disapprove" || approve_json == "dis"
        || approve_json == "disapproved"
    then "dis"
    else "dis"
  Except.ok
    ([("mission", normalize_text mission), ("date", normalize_text date),
      ("prep_name", normalize_text prep_name), ("prep_rank", normalize_text prep_rank),
      ("prep_title", normalize_text prep_title), ("prep_unit", normalize_text prep_unit),
      ("prep_email", normalize_text prep_email), ("prep_phone", normalize_text prep_phone),
      ("prep_uic", normalize_text prep_uic), ("prep_plan", normalize_text prep_plan),
      ("overall_plan", normalize_text overall_plan)]
     ++ rows
     ++ [("overall_res", overall_res), ("xapp", xapp)])

/-- Looking a field up in the produced assignment list (= dict access,
since all destination keys are distinct). -/
def lookupField (fs : List (String × String)) (k : String) : Option String :=
  (fs.find? (fun p => p.1 == k)).map (fun p => p.2)

/-- Errors reported by `generate_draw_pdf`. -/
inductive GenError where
  | fileNotFound (path : String)
  | mapperError (e : PyErr)
deriving DecidableEq, Repr

/-- `fill_pdf`'s effect on the file system: the PDF-library manipulation is
out of scope; what matters here is that it writes the output path. -/
def fill_pdf_effect (files : List String) (output_path : String) : List String :=
  if output_path ∈ files then files else files ++ [output_path]

/-- `generate_draw_pdf` (lines 333–351) over an abstract file system
(the list of existing paths): checks that the template exists before
anything else, then builds the field values, then writes the output.
Returns the outcome together with the resulting file system. -/
def generate_draw_pdf (files : List String) (draw_data : PyVal)
    (output_path template_path : String) :
    Except GenError String × List String :=
  if template_path ∈ files then
    match build_field_values draw_data with
    | .error e => (.error (.mapperError e), files)
    | .ok _ => (.ok output_path, fill_pdf_effect files output_path)
  else (.error (.fileNotFound template_path), files)

/-! ## Safety predicates

`processSubtask` / `build_field_values` raise only at the four kinds of
places identified in the code: `item.get` on a non-dict subtask record,
`prepared.get` / `how_to.get` on a truthy non-dict optional record, and
iteration over a truthy non-iterable `values` entry.  The following
decidable predicates describe the inputs on which none of those fire. -/

/-- Iterating the value succeeds whenever it is truthy. -/
def safeVals (v : PyVal) : Bool := !truthy v || (pyIter v).isOk

/-- The CONTROL slot raises nowhere on this `control` entry. -/
def safeCtrl (ctrl : PyVal) : Bool :=
  match ctrl with
  | .dict ckvs => iterOk (lookupD ckvs "values" (.list []))
  | _ => true

/-- A subtask record that the loop body consumes without raising. -/
def safeItem (item : PyVal) : Bool :=
  match item with
  | .dict kvs =>
    let how_to := pyOr (lookupD kvs "how_to_implement" (PyVal.dict [])) (PyVal.dict [])
    safeCtrl (lookupD kvs "control" PyVal.none)
    && how_to.isDict
    && safeVals (valuesOf (dictGetD how_to "how" PyVal.none))
    && safeVals (valuesOf (dictGetD how_to "who" PyVal.none))
  | _ => false

/-- An input record on which `build_field_values` raises nowhere:
a dict whose `prepared_by` is falsy or a dict, and whose `subtasks`
entry is falsy or a list whose first `MAX_ROWS` elements are safe
subtask records (later elements are never touched: the loop breaks). -/
def safeDraw (d : PyVal) : Bool :=
  match d with
  | .dict kvs =>
    (pyOr (lookupD kvs "prepared_by" (PyVal.dict [])) (PyVal.dict [])).isDict
    && (match pyOr (lookupD kvs "subtasks" (PyVal.list [])) (PyVal.list []) with
        | .list items => (items.take MAX_ROWS).all safeItem
        | _ => false)
  | _ => false

/-! ## Total mirrors

On safe inputs the `Except`-valued mapper is proved below to coincide with
the following total functions, which the claim statements then reason
about. -/

/-- Total counterpart of `ctrlFieldsE` (coincides on safe inputs). -/
def ctrlFieldsOk (idx : Nat) (ctrl : PyVal) : List (String × String) :=
  match ctrl with
  | .dict ckvs =>
      let vals := pyOr (lookupD ckvs "values" (.list [])) (.list [])
      [("control_" ++ toString idx,
        pyRstrip (String.join ((iterElems vals).map
          (fun v => "- " ++ normalize_text v ++ "\n"))))]
  | _ => []

/-- Total counterpart of `joinedFieldsE` (coincides on safe inputs). -/
def joinedFieldsOk (key : String) (vals : PyVal) : List (String × String) :=
  if truthy vals then
    [(key, String.intercalate "\n" ((iterElems vals).map normalize_text))]
  else []

/-- The value of the loop body on a safe subtask record (proved equal to
`processSubtask` on safe records by `processSubtask_eq_rowOk`). -/
def rowOk (idx : Nat) (kvs : List (String × PyVal)) : List (String × String) :=
  let how_to := pyOr (lookupD kvs "how_to_implement" (PyVal.dict [])) (PyVal.dict [])
  [("sub_" ++ toString idx,
      normalize_text (sub_name_of (lookupD kvs "subtask" PyVal.none))),
   ("haz_" ++ toString idx,
      normalize_text (lookupD kvs "hazard" (PyVal.str "")))]
  ++ ctrlFieldsOk idx (lookupD kvs "control" PyVal.none)
  ++ joinedFieldsOk ("how_" ++ toString idx) (valuesOf (dictGetD how_to "how" PyVal.none))
  ++ joinedFieldsOk ("who_" ++ toString idx) (valuesOf (dictGetD how_to "who" PyVal.none))
  ++ riskField ("init_risk" ++ toString idx)
      (pyUpper (normalize_text (lookupD kvs "initial_risk_level" (PyVal.str ""))))
  ++ riskField ("res_risk" ++ toString idx)
      (pyUpper (normalize_text (lookupD kvs "residual_risk_level" (PyVal.str ""))))

/-- `rowOk` lifted to an arbitrary item (safe items are dicts). -/
def rowOkItem (idx : Nat) (item : PyVal) : List (String × String) :=
  match item with
  | .dict kvs => rowOk idx kvs
  | _ => []

/-- The value of the subtask loop on safe items. -/
def rowsOk : Nat → List PyVal → List (String × String)
  | _, [] => []
  | idx, item :: rest =>
    if idx > MAX_ROWS then []
    else rowOkItem idx item ++ rowsOk (idx + 1) rest

/-- The header assignments (lines 69–83) on a safe record. -/
def headerFields (kvs : List (String × PyVal)) : List (String × String) :=
  let prepared := pyOr (lookupD kvs "prepared_by" (PyVal.dict [])) (PyVal.dict [])
  [("mission", normalize_text (lookupD kvs "mission_task_and_description" (PyVal.str ""))),
   ("date", normalize_text (lookupD kvs "date" (PyVal.str ""))),
   ("prep_name", normalize_text (dictGetD prepared "name_last_first_middle_initial" (PyVal.str ""))),
   ("prep_rank", normalize_text (dictGetD prepared "rank_grade" (PyVal.str ""))),
   ("prep_title", normalize_text (dictGetD prepared "duty_title_position" (PyVal.str ""))),
   ("prep_unit", normalize_text (dictGetD prepared "unit" (PyVal.str ""))),
   ("prep_email", normalize_text (dictGetD prepared "work_email" (PyVal.str ""))),
   ("prep_phone", normalize_text (dictGetD prepared "telephone" (PyVal.str ""))),
   ("prep_uic", normalize_text (dictGetD prepared "uic_cin" (PyVal.str ""))),
   ("prep_plan", normalize_text (dictGetD prepared "training_support_or_lesson_plan_or_opord" (PyVal.str ""))),
   ("overall_plan", normalize_text (lookupD kvs "overall_supervision_plan" (PyVal.str "")))]

/-- The subtask records consumed by the loop. -/
def rowItemsOf (kvs : List (String × PyVal)) : List PyVal :=
  iterElems (pyOr (lookupD kvs "subtasks" (PyVal.list [])) (PyVal.list []))

/-- The Block-10 (`overall_res`) selection computed on lines 144–153. -/
def overallResOf (kvs : List (String × PyVal)) : String :=
  let overall_json :=
    pyUpper (normalize_text (lookupD kvs "overall_residual_risk_level" (PyVal.str "")))
  if overall_json ≠ "" then mapGetD overall_map overall_json "L" else "L"

/-- The Block-12 (`xapp`) selection computed on lines 156–163. -/
def xappOf (kvs : List (String × PyVal)) : String :=
  let approve_json :=
    pyLower (normalize_text (lookupD kvs "approval_decision" (PyVal.str "")))
  if approve_json == "approve" || approve_json == "app" || approve_json == "approved"
  then "app"
  else if approve_json == "disapprove" || approve_json == "dis"
      || approve_json == "disapproved"
  then "dis"
  else "dis"

/-! ## Refinement: on safe inputs the mapper never raises and computes the
total mirrors -/

theorem pyIter_isOk_eq (v : PyVal) (h : (pyIter v).isOk = true) :
    pyIter v = .ok (iterElems v) := by
  cases v <;> simp_all [pyIter, iterElems, Except.isOk, Except.toBool]

theorem iterOk_pyOr (x : PyVal) (h : iterOk x = true) :
    pyIter (pyOr x (.list [])) = .ok (iterElems (pyOr x (.list []))) := by
  unfold iterOk at h
  by_cases ht : truthy x
  · rw [pyOr, if_pos ht]
    exact pyIter_isOk_eq x (by simpa [ht] using h)
  · rw [pyOr, if_neg (by simp [ht])]
    rfl

theorem isDict_exists (v : PyVal) (h : v.isDict = true) :
    ∃ kvs, v = .dict kvs := by
  cases v <;> simp_all [PyVal.isDict]

theorem ctrlFieldsE_eq (idx : Nat) (ctrl : PyVal) (h : safeCtrl ctrl = true) :
    ctrlFieldsE idx ctrl = .ok (ctrlFieldsOk idx ctrl) := by
  cases ctrl <;> try rfl
  case dict ckvs =>
    unfold safeCtrl at h
    unfold ctrlFieldsE ctrlFieldsOk
    simp only [bind, Except.bind, iterOk_pyOr _ h]

theorem joinedFieldsE_eq (key : String) (vals : PyVal) (h : safeVals vals = true) :
    joinedFieldsE key vals = .ok (joinedFieldsOk key vals) := by
  unfold safeVals at h
  unfold joinedFieldsE joinedFieldsOk
  by_cases ht : truthy vals
  · rw [if_pos ht, if_pos ht]
    simp only [bind, Except.bind, pyIter_isOk_eq vals (by simpa [ht] using h)]
  · rw [if_neg ht, if_neg ht]

/-- On a safe subtask record the loop body succeeds and computes `rowOk`. -/
theorem processSubtask_eq_rowOk (idx : Nat) (kvs : List (String × PyVal))
    (h : safeItem (.dict kvs) = true) :
    processSubtask idx (.dict kvs) = .ok (rowOk idx kvs) := by
  unfold safeItem at h
  simp only [Bool.and_eq_true] at h
  obtain ⟨⟨⟨hctrl, hhtd⟩, hhow⟩, hwho⟩ := h
  obtain ⟨hkvs, hht⟩ := isDict_exists _ hhtd
  simp only [hht, dictGetD] at hhow hwho
  unfold processSubtask rowOk
  simp only [PyVal.get, bind, Except.bind, hht, dictGetD,
    ctrlFieldsE_eq _ _ hctrl, joinedFieldsE_eq _ _ hhow, joinedFieldsE_eq _ _ hwho]

/-- On safe items the loop succeeds and computes `rowsOk` (items past the
row capacity are never touched, so they need not be safe). -/
theorem processSubtasks_eq_rowsOk : ∀ (items : List PyVal) (idx : Nat),
    (∀ it ∈ items.take (MAX_ROWS + 1 - idx), safeItem it = true) →
    processSubtasks idx items = .ok (rowsOk idx items)
  | [], _, _ => rfl
  | it :: rest, idx, h => by
    unfold processSubtasks rowsOk
    by_cases hidx : idx > MAX_ROWS
    · rw [if_pos hidx, if_pos hidx]
    · rw [if_neg hidx, if_neg hidx]
      have hcons : (it :: rest).take (MAX_ROWS + 1 - idx)
          = it :: rest.take (MAX_ROWS - idx) := by
        have : MAX_ROWS + 1 - idx = (MAX_ROWS - idx) + 1 := by omega
        rw [this, List.take_succ_cons]
      have hsafe : safeItem it = true := h it (by rw [hcons]; exact List.mem_cons_self _ _)
      have hrest : ∀ x ∈ rest.take (MAX_ROWS + 1 - (idx + 1)), safeItem x = true := by
        intro x hx
        refine h x ?_
        rw [hcons]
        refine List.mem_cons_of_mem _ ?_
        have : MAX_ROWS + 1 - (idx + 1) = MAX_ROWS - idx := by omega
        rw [this] at hx
        exact hx
      have hd : ∃ ikvs, it = .dict ikvs := by
        cases it <;> simp_all [safeItem]
      obtain ⟨ikvs, rfl⟩ := hd
      simp only [bind, Except.bind, processSubtask_eq_rowOk idx ikvs hsafe,
        processSubtasks_eq_rowsOk rest (idx + 1) hrest, rowOkItem]

/-- On a safe input record `build_field_values` succeeds, producing the
header, the rows, and the two radio-group selections, in order. -/
theorem build_eq (kvs : List (String × PyVal)) (h : safeDraw (.dict kvs) = true) :
    build_field_values (.dict kvs) =
      .ok (headerFields kvs ++ rowsOk 1 (rowItemsOf kvs)
           ++ [("overall_res", overallResOf kvs), ("xapp", xappOf kvs)]) := by
  unfold safeDraw at h
  simp only [Bool.and_eq_true] at h
  obtain ⟨hprep, hsubs⟩ := h
  obtain ⟨pkvs, hp⟩ := isDict_exists _ hprep
  have hsub : ∃ items, pyOr (lookupD kvs "subtasks" (.list [])) (.list []) = .list items
      ∧ (items.take MAX_ROWS).all safeItem = true := by
    cases hs : pyOr (lookupD kvs "subtasks" (.list [])) (.list []) <;> simp_all
  obtain ⟨items, hitems, hall⟩ := hsub
  have hallm : ∀ it ∈ items.take (MAX_ROWS + 1 - 1), safeItem it = true := by
    intro it hit
    exact List.all_eq_true.mp hall it (by simpa using hit)
  unfold build_field_values headerFields rowItemsOf overallResOf xappOf
  simp only [PyVal.get, bind, Except.bind, hp, hitems, pyIter, dictGetD, iterElems,
    processSubtasks_eq_rowsOk items 1 hallm]




theorem append_right_ne {a b : String} (t : String) (h : a ≠ b) : a ++ t ≠ b ++ t := by
  intro e
  apply h
  have hd := congrArg String.data e
  simp only [String.data_append] at hd
  exact String.ext (List.append_cancel_right hd)

theorem ne_of_head_ne {a b : String} (h : a.data.head? ≠ b.data.head?) : a ≠ b :=
  fun e => h (by rw [e])

theorem head_append {p : String} (t : String) {c : Char} {cs : List Char}
    (h : p.data = c :: cs) : (p ++ t).data.head? = some c := by
  rw [String.data_append, h]
  rfl

example : ("sub_" : String).data = 's' :: ['u','b','_'] := rfl
example : ∀ t, ("haz_" ++ t : String) ≠ "overall_res" := fun t =>
  ne_of_head_ne (by rw [head_append t rfl]; decide)

theorem ctrlFieldsOk_key {idx : Nat} {c : PyVal} {e : String × String}
    (he : e ∈ ctrlFieldsOk idx c) : e.1 = "control_" ++ toString idx := by
  unfold ctrlFieldsOk at he
  cases c <;> simp_all

theorem joinedFieldsOk_key {key : String} {vals : PyVal} {e : String × String}
    (he : e ∈ joinedFieldsOk key vals) : e.1 = key := by
  unfold joinedFieldsOk at he
  split at he <;> simp_all

theorem riskField_key {key lvl : String} {e : String × String}
    (he : e ∈ riskField key lvl) : e.1 = key := by
  unfold riskField at he
  split at he <;> simp_all

theorem rowOk_key_mem {idx : Nat} {kvs : List (String × PyVal)} {e : String × String}
    (he : e ∈ rowOk idx kvs) :
    e.1 = "sub_" ++ toString idx ∨ e.1 = "haz_" ++ toString idx ∨
    e.1 = "control_" ++ toString idx ∨ e.1 = "how_" ++ toString idx ∨
    e.1 = "who_" ++ toString idx ∨ e.1 = "init_risk" ++ toString idx ∨
    e.1 = "res_risk" ++ toString idx := by
  unfold rowOk at he
  simp only [List.append_assoc, List.mem_append, List.mem_cons,
    List.not_mem_nil, or_false] at he
  rcases he with (h | h) | h | h | h | h | h
  · exact Or.inl (by rw [h])
  · exact Or.inr (Or.inl (by rw [h]))
  · exact Or.inr (Or.inr (Or.inl (ctrlFieldsOk_key h)))
  · exact Or.inr (Or.inr (Or.inr (Or.inl (joinedFieldsOk_key h))))
  · exact Or.inr (Or.inr (Or.inr (Or.inr (Or.inl (joinedFieldsOk_key h)))))
  · exact Or.inr (Or.inr (Or.inr (Or.inr (Or.inr (Or.inl (riskField_key h))))))
  · exact Or.inr (Or.inr (Or.inr (Or.inr (Or.inr (Or.inr (riskField_key h))))))

theorem rowsOk_key_mem : ∀ (items : List PyVal) (idx : Nat) (e : String × String),
    e ∈ rowsOk idx items → ∃ j : Nat,
    e.1 = "sub_" ++ toString j ∨ e.1 = "haz_" ++ toString j ∨
    e.1 = "control_" ++ toString j ∨ e.1 = "how_" ++ toString j ∨
    e.1 = "who_" ++ toString j ∨ e.1 = "init_risk" ++ toString j ∨
    e.1 = "res_risk" ++ toString j
  | [], _, e, he => by simp [rowsOk] at he
  | it :: rest, idx, e, he => by
    unfold rowsOk at he
    split at he
    · simp at he
    · rcases List.mem_append.mp he with h | h
      · cases it <;> simp [rowOkItem] at h
        case dict ikvs => exact ⟨idx, rowOk_key_mem h⟩
      · exact rowsOk_key_mem rest (idx + 1) e h



theorem find_rows_none (items : List PyVal) (idx : Nat) (k : String)
    (hk : ∀ j : Nat,
      ¬(k = "sub_" ++ toString j ∨ k = "haz_" ++ toString j ∨
        k = "control_" ++ toString j ∨ k = "how_" ++ toString j ∨
        k = "who_" ++ toString j ∨ k = "init_risk" ++ toString j ∨
        k = "res_risk" ++ toString j)) :
    (rowsOk idx items).find? (fun p => p.1 == k) = none := by
  rw [List.find?_eq_none]
  intro e he
  simp only [beq_iff_eq]
  intro hek
  obtain ⟨j, hj⟩ := rowsOk_key_mem items idx e he
  exact hk j (hek ▸ hj)

theorem overall_res_not_rowkey : ∀ j : Nat,
    ¬(("overall_res" : String) = "sub_" ++ toString j ∨ "overall_res" = "haz_" ++ toString j ∨
      "overall_res" = "control_" ++ toString j ∨ "overall_res" = "how_" ++ toString j ∨
      "overall_res" = "who_" ++ toString j ∨ "overall_res" = "init_risk" ++ toString j ∨
      "overall_res" = "res_risk" ++ toString j) := by
  intro j
  rintro (h | h | h | h | h | h | h) <;>
    exact ne_of_head_ne (by rw [head_append (toString j) rfl]; decide) h

theorem xapp_not_rowkey : ∀ j : Nat,
    ¬(("xapp" : String) = "sub_" ++ toString j ∨ "xapp" = "haz_" ++ toString j ∨
      "xapp" = "control_" ++ toString j ∨ "xapp" = "how_" ++ toString j ∨
      "xapp" = "who_" ++ toString j ∨ "xapp" = "init_risk" ++ toString j ∨
      "xapp" = "res_risk" ++ toString j) := by
  intro j
  rintro (h | h | h | h | h | h | h) <;>
    exact ne_of_head_ne (by rw [head_append (toString j) rfl]; decide) h

theorem lookupField_build_overall_res (kvs : List (String × PyVal))
    (h : safeDraw (.dict kvs) = true) :
    ∃ fs, build_field_values (.dict kvs) = .ok fs ∧
      lookupField fs "overall_res" = some (overallResOf kvs) := by
  refine ⟨_, build_eq kvs h, ?_⟩
  unfold lookupField
  rw [List.find?_append, List.find?_append]
  rw [find_rows_none _ _ _ overall_res_not_rowkey]
  have hhdr : (headerFields kvs).find? (fun p => p.1 == "overall_res") = none := by
    simp [headerFields, List.find?]
  rw [hhdr]
  simp [List.find?]



theorem mapGetD_eq_default {m : List (String × String)} {k d : String}
    (h : ∀ p ∈ m, p.1 ≠ k) : mapGetD m k d = d := by
  unfold mapGetD
  rw [List.find?_eq_none.mpr (by intro p hp; simpa using h p hp)]

theorem overall_mapGetD_default {k : String}
    (hk : k ∉ (["EH", "E", "H", "M", "L"] : List String)) :
    mapGetD overall_map k "L" = "L" := by
  simp only [List.mem_cons, List.not_mem_nil, or_false, not_or] at hk
  obtain ⟨n1, n2, n3, n4, n5⟩ := hk
  refine mapGetD_eq_default ?_
  intro p hp
  simp only [overall_map, List.mem_cons, List.not_mem_nil, or_false] at hp
  rcases hp with rfl | rfl | rfl | rfl | rfl
  exacts [Ne.symm n1, Ne.symm n2, Ne.symm n3, Ne.symm n4, Ne.symm n5]

theorem overall_mapGetD_mem (k : String) :
    mapGetD overall_map k "L" ∈ (["EH", "H", "M", "L"] : List String) := by
  by_cases h1 : k = "EH"
  · subst h1; decide
  by_cases h2 : k = "E"
  · subst h2; decide
  by_cases h3 : k = "H"
  · subst h3; decide
  by_cases h4 : k = "M"
  · subst h4; decide
  by_cases h5 : k = "L"
  · subst h5; decide
  rw [overall_mapGetD_default (by simp [h1, h2, h3, h4, h5])]
  decide

/-- Claim C4: on every safe input record the `overall_res` assignment is a
member of `{EH, H, M, L}`; a recognized code (case-insensitive, `E` aliasing
`EH`) maps to its literal code, and an empty, absent or unrecognized
`overall_residual_risk_level` yields the default `"L"` (Low). -/
theorem build_overall_res_mapping (kvs : List (String × PyVal))
    (h : safeDraw (.dict kvs) = true) :
    ∃ fs, build_field_values (.dict kvs) = .ok fs ∧
      lookupField fs "overall_res" = some (overallResOf kvs) ∧
      overallResOf kvs ∈ (["EH", "H", "M", "L"] : List String) ∧
      ∀ code : String,
        pyUpper (normalize_text (lookupD kvs "overall_residual_risk_level" (PyVal.str "")))
          = code →
        ((code = "EH" ∨ code = "E") → overallResOf kvs = "EH") ∧
        (code = "H" → overallResOf kvs = "H") ∧
        (code = "M" → overallResOf kvs = "M") ∧
        (code = "L" → overallResOf kvs = "L") ∧
        (code = "" → overallResOf kvs = "L") ∧
        (code ∉ (["EH", "E", "H", "M", "L"] : List String) → overallResOf kvs = "L") := by
  obtain ⟨fs, hfs, hlf⟩ := lookupField_build_overall_res kvs h
  refine ⟨fs, hfs, hlf, ?_, ?_⟩
  · unfold overallResOf
    dsimp only
    split
    · exact overall_mapGetD_mem _
    · decide
  · intro code hcode
    unfold overallResOf
    dsimp only
    rw [hcode]
    refine ⟨?_, ?_, ?_, ?_, ?_, ?_⟩
    · rintro (rfl | rfl) <;> decide
    · rintro rfl; decide
    · rintro rfl; decide
    · rintro rfl; decide
    · rintro rfl; decide
    · intro hn
      by_cases hc : code = ""
      · subst hc; decide
      · rw [if_pos hc, overall_mapGetD_default hn]



theorem lookupField_build_xapp (kvs : List (String × PyVal))
    (h : safeDraw (.dict kvs) = true) :
    ∃ fs, build_field_values (.dict kvs) = .ok fs ∧
      lookupField fs "xapp" = some (xappOf kvs) := by
  refine ⟨_, build_eq kvs h, ?_⟩
  unfold lookupField
  rw [List.find?_append, List.find?_append]
  rw [find_rows_none _ _ _ xapp_not_rowkey]
  have hhdr : (headerFields kvs).find? (fun p => p.1 == "xapp") = none := by
    simp [headerFields, List.find?]
  rw [hhdr]
  simp [List.find?]

/-- Claim C5: on every safe input record the `xapp` assignment is `"app"`
exactly when `approval_decision` lower-cases to one of
`{approve, approved, app}`, is `"dis"` when it lower-cases to one of
`{disapprove, disapproved, dis}`, and is the default `"dis"` for every
absent or unrecognized value; the resolution is case-insensitive and total. -/
theorem build_xapp_mapping (kvs : List (String × PyVal))
    (h : safeDraw (.dict kvs) = true) :
    ∃ fs, build_field_values (.dict kvs) = .ok fs ∧
      lookupField fs "xapp" = some (xappOf kvs) ∧
      ∀ word : String,
        pyLower (normalize_text (lookupD kvs "approval_decision" (PyVal.str ""))) = word →
        ((word = "approve" ∨ word = "approved" ∨ word = "app") → xappOf kvs = "app") ∧
        ((word = "disapprove" ∨ word = "disapproved" ∨ word = "dis") → xappOf kvs = "dis") ∧
        (word ∉ (["approve", "approved", "app", "disapprove", "disapproved", "dis"] :
            List String) → xappOf kvs = "dis") := by
  obtain ⟨fs, hfs, hlf⟩ := lookupField_build_xapp kvs h
  refine ⟨fs, hfs, hlf, ?_⟩
  intro word hword
  unfold xappOf
  dsimp only
  rw [hword]
  refine ⟨?_, ?_, ?_⟩
  · rintro (rfl | rfl | rfl) <;> decide
  · rintro (rfl | rfl | rfl) <;> decide
  · intro hn
    simp only [List.mem_cons, List.not_mem_nil, or_false, not_or] at hn
    obtain ⟨n1, n2, n3, n4, n5, n6⟩ := hn
    simp [n1, n2, n3, n4, n5, n6]



theorem intercalate_go_data (s : String) : ∀ (l : List String) (acc : String),
    (String.intercalate.go acc s l).data =
      acc.data ++ (l.map (fun x => s.data ++ x.data)).flatten
  | [], acc => by simp [String.intercalate.go]
  | a :: as, acc => by
    rw [String.intercalate.go, intercalate_go_data s as]
    simp [String.data_append, List.append_assoc]

theorem data_intercalate_cons (s a : String) (as : List String) :
    (String.intercalate s (a :: as)).data =
      a.data ++ (as.map (fun x => s.data ++ x.data)).flatten := by
  rw [String.intercalate, intercalate_go_data]

theorem flatten_newline_shift : ∀ (as : List String),
    ['\n'] ++ (as.map (fun s => s.data ++ ['\n'])).flatten =
      (as.map (fun x => ['\n'] ++ x.data)).flatten ++ ['\n']
  | [] => rfl
  | b :: bs => by
    simp only [List.map_cons, List.flatten_cons, List.append_assoc]
    congr 1
    congr 1
    exact flatten_newline_shift bs

theorem pyRstrip_drop_newline (x y : String) (h : x.data = y.data ++ ['\n']) :
    pyRstrip x = pyRstrip y := by
  unfold pyRstrip
  rw [h, List.rdropWhile_concat_pos]
  decide

theorem pyRstrip_join_eq_intercalate (l : List String) (h : l ≠ []) :
    pyRstrip (String.join (l.map (fun s => s ++ "\n"))) =
      pyRstrip (String.intercalate "\n" l) := by
  obtain ⟨a, as, rfl⟩ := List.exists_cons_of_ne_nil h
  refine pyRstrip_drop_newline _ _ ?_
  rw [String.data_join, data_intercalate_cons]
  have hn : ("\n" : String).data = ['\n'] := rfl
  simp only [List.map_map, List.map_cons, List.flatten_cons, Function.comp,
    String.data_append, hn, List.append_assoc]
  congr 1
  exact flatten_newline_shift as



theorem find_ctrl_none {idx : Nat} {c : PyVal} {k : String}
    (hk : k ≠ "control_" ++ toString idx) :
    (ctrlFieldsOk idx c).find? (fun p => p.1 == k) = none := by
  rw [List.find?_eq_none]
  intro e he
  simp only [beq_iff_eq]
  intro h
  exact hk (h.symm.trans (ctrlFieldsOk_key he))

theorem find_joined_none {key : String} {vals : PyVal} {k : String}
    (hk : k ≠ key) :
    (joinedFieldsOk key vals).find? (fun p => p.1 == k) = none := by
  rw [List.find?_eq_none]
  intro e he
  simp only [beq_iff_eq]
  intro h
  exact hk (h.symm.trans (joinedFieldsOk_key he))

theorem find_risk_none {key lvl k : String} (hk : k ≠ key) :
    (riskField key lvl).find? (fun p => p.1 == k) = none := by
  rw [List.find?_eq_none]
  intro e he
  simp only [beq_iff_eq]
  intro h
  exact hk (h.symm.trans (riskField_key he))

theorem find_risk_same (key lvl : String) :
    (riskField key lvl).find? (fun p => p.1 == key) =
      if lvl ≠ "" then some (key, mapGetD risk_map lvl "0") else none := by
  unfold riskField
  split <;> simp

theorem rowOk_lookup_init (idx : Nat) (kvs : List (String × PyVal)) :
    lookupField (rowOk idx kvs) ("init_risk" ++ toString idx) =
      (if pyUpper (normalize_text (lookupD kvs "initial_risk_level" (PyVal.str ""))) ≠ ""
       then some (mapGetD risk_map
         (pyUpper (normalize_text (lookupD kvs "initial_risk_level" (PyVal.str "")))) "0")
       else none) := by
  have h1 : ("sub_" ++ toString idx : String) ≠ "init_risk" ++ toString idx :=
    append_right_ne _ (by decide)
  have h2 : ("haz_" ++ toString idx : String) ≠ "init_risk" ++ toString idx :=
    append_right_ne _ (by decide)
  have h3 : ("init_risk" ++ toString idx : String) ≠ "control_" ++ toString idx :=
    append_right_ne _ (by decide)
  have h4 : ("init_risk" ++ toString idx : String) ≠ "how_" ++ toString idx :=
    append_right_ne _ (by decide)
  have h5 : ("init_risk" ++ toString idx : String) ≠ "who_" ++ toString idx :=
    append_right_ne _ (by decide)
  have h6 : ("init_risk" ++ toString idx : String) ≠ "res_risk" ++ toString idx :=
    append_right_ne _ (by decide)
  unfold rowOk lookupField
  dsimp only
  simp only [List.cons_append, List.nil_append]
  rw [List.find?_cons_of_neg _ (by simp only [beq_iff_eq]; exact h1),
      List.find?_cons_of_neg _ (by simp only [beq_iff_eq]; exact h2)]
  simp only [List.find?_append, find_ctrl_none h3, find_joined_none h4,
    find_joined_none h5, find_risk_same, find_risk_none h6]
  by_cases hl :
      pyUpper (normalize_text (lookupD kvs "initial_risk_level" (PyVal.str ""))) ≠ ""
  · rw [if_pos hl, if_pos hl]
    simp
  · rw [if_neg hl, if_neg hl]
    simp



theorem rowOk_lookup_res (idx : Nat) (kvs : List (String × PyVal)) :
    lookupField (rowOk idx kvs) ("res_risk" ++ toString idx) =
      (if pyUpper (normalize_text (lookupD kvs "residual_risk_level" (PyVal.str ""))) ≠ ""
       then some (mapGetD risk_map
         (pyUpper (normalize_text (lookupD kvs "residual_risk_level" (PyVal.str "")))) "0")
       else none) := by
  have h1 : ("sub_" ++ toString idx : String) ≠ "res_risk" ++ toString idx :=
    append_right_ne _ (by decide)
  have h2 : ("haz_" ++ toString idx : String) ≠ "res_risk" ++ toString idx :=
    append_right_ne _ (by decide)
  have h3 : ("res_risk" ++ toString idx : String) ≠ "control_" ++ toString idx :=
    append_right_ne _ (by decide)
  have h4 : ("res_risk" ++ toString idx : String) ≠ "how_" ++ toString idx :=
    append_right_ne _ (by decide)
  have h5 : ("res_risk" ++ toString idx : String) ≠ "who_" ++ toString idx :=
    append_right_ne _ (by decide)
  have h6 : ("res_risk" ++ toString idx : String) ≠ "init_risk" ++ toString idx :=
    append_right_ne _ (by decide)
  unfold rowOk lookupField
  dsimp only
  simp only [List.cons_append, List.nil_append]
  rw [List.find?_cons_of_neg _ (by simp only [beq_iff_eq]; exact h1),
      List.find?_cons_of_neg _ (by simp only [beq_iff_eq]; exact h2)]
  simp only [List.find?_append, find_ctrl_none h3, find_joined_none h4,
    find_joined_none h5, find_risk_none h6, find_risk_same]
  by_cases hl :
      pyUpper (normalize_text (lookupD kvs "residual_risk_level" (PyVal.str ""))) ≠ ""
  · rw [if_pos hl, if_pos hl]
    simp
  · rw [if_neg hl, if_neg hl]
    simp

theorem find_ctrl_same (idx : Nat) (c : PyVal) :
    (ctrlFieldsOk idx c).find? (fun p => p.1 == "control_" ++ toString idx) =
      (match c with
       | .dict ckvs => some ("control_" ++ toString idx,
           pyRstrip (String.join
             ((iterElems (pyOr (lookupD ckvs "values" (.list [])) (.list []))).map
               (fun v => "- " ++ normalize_text v ++ "\n"))))
       | _ => none) := by
  cases c <;> simp [ctrlFieldsOk]

theorem find_joined_same (key : String) (vals : PyVal) :
    (joinedFieldsOk key vals).find? (fun p => p.1 == key) =
      (if truthy vals
       then some (key, String.intercalate "\n" ((iterElems vals).map normalize_text))
       else none) := by
  unfold joinedFieldsOk
  split <;> simp

theorem rowOk_lookup_control (idx : Nat) (kvs : List (String × PyVal)) :
    lookupField (rowOk idx kvs) ("control_" ++ toString idx) =
      (match lookupD kvs "control" PyVal.none with
       | .dict ckvs => some
           (pyRstrip (String.join
             ((iterElems (pyOr (lookupD ckvs "values" (.list [])) (.list []))).map
               (fun v => "- " ++ normalize_text v ++ "\n"))))
       | _ => none) := by
  have h1 : ("sub_" ++ toString idx : String) ≠ "control_" ++ toString idx :=
    append_right_ne _ (by decide)
  have h2 : ("haz_" ++ toString idx : String) ≠ "control_" ++ toString idx :=
    append_right_ne _ (by decide)
  have h4 : ("control_" ++ toString idx : String) ≠ "how_" ++ toString idx :=
    append_right_ne _ (by decide)
  have h5 : ("control_" ++ toString idx : String) ≠ "who_" ++ toString idx :=
    append_right_ne _ (by decide)
  have h6 : ("control_" ++ toString idx : String) ≠ "init_risk" ++ toString idx :=
    append_right_ne _ (by decide)
  have h7 : ("control_" ++ toString idx : String) ≠ "res_risk" ++ toString idx :=
    append_right_ne _ (by decide)
  unfold rowOk lookupField
  dsimp only
  simp only [List.cons_append, List.nil_append]
  rw [List.find?_cons_of_neg _ (by simp only [beq_iff_eq]; exact h1),
      List.find?_cons_of_neg _ (by simp only [beq_iff_eq]; exact h2)]
  simp only [List.find?_append, find_ctrl_same, find_joined_none h4,
    find_joined_none h5, find_risk_none h6, find_risk_none h7]
  cases lookupD kvs "control" PyVal.none <;> simp

theorem rowOk_lookup_how (idx : Nat) (kvs : List (String × PyVal)) :
    lookupField (rowOk idx kvs) ("how_" ++ toString idx) =
      (if truthy (valuesOf (dictGetD
          (pyOr (lookupD kvs "how_to_implement" (PyVal.dict [])) (PyVal.dict []))
          "how" PyVal.none))
       then some (String.intercalate "\n"
         ((iterElems (valuesOf (dictGetD
             (pyOr (lookupD kvs "how_to_implement" (PyVal.dict [])) (PyVal.dict []))
             "how" PyVal.none))).map normalize_text))
       else none) := by
  have h1 : ("sub_" ++ toString idx : String) ≠ "how_" ++ toString idx :=
    append_right_ne _ (by decide)
  have h2 : ("haz_" ++ toString idx : String) ≠ "how_" ++ toString idx :=
    append_right_ne _ (by decide)
  have h3 : ("how_" ++ toString idx : String) ≠ "control_" ++ toString idx :=
    append_right_ne _ (by decide)
  have h5 : ("how_" ++ toString idx : String) ≠ "who_" ++ toString idx :=
    append_right_ne _ (by decide)
  have h6 : ("how_" ++ toString idx : String) ≠ "init_risk" ++ toString idx :=
    append_right_ne _ (by decide)
  have h7 : ("how_" ++ toString idx : String) ≠ "res_risk" ++ toString idx :=
    append_right_ne _ (by decide)
  unfold rowOk lookupField
  dsimp only
  simp only [List.cons_append, List.nil_append]
  rw [List.find?_cons_of_neg _ (by simp only [beq_iff_eq]; exact h1),
      List.find?_cons_of_neg _ (by simp only [beq_iff_eq]; exact h2)]
  simp only [List.find?_append, find_ctrl_none h3, find_joined_same,
    find_joined_none h5, find_risk_none h6, find_risk_none h7]
  split <;> simp

theorem rowOk_lookup_who (idx : Nat) (kvs : List (String × PyVal)) :
    lookupField (rowOk idx kvs) ("who_" ++ toString idx) =
      (if truthy (valuesOf (dictGetD
          (pyOr (lookupD kvs "how_to_implement" (PyVal.dict [])) (PyVal.dict []))
          "who" PyVal.none))
       then some (String.intercalate "\n"
         ((iterElems (valuesOf (dictGetD
             (pyOr (lookupD kvs "how_to_implement" (PyVal.dict [])) (PyVal.dict []))
             "who" PyVal.none))).map normalize_text))
       else none) := by
  have h1 : ("sub_" ++ toString idx : String) ≠ "who_" ++ toString idx :=
    append_right_ne _ (by decide)
  have h2 : ("haz_" ++ toString idx : String) ≠ "who_" ++ toString idx :=
    append_right_ne _ (by decide)
  have h3 : ("who_" ++ toString idx : String) ≠ "control_" ++ toString idx :=
    append_right_ne _ (by decide)
  have h4 : ("who_" ++ toString idx : String) ≠ "how_" ++ toString idx :=
    append_right_ne _ (by decide)
  have h6 : ("who_" ++ toString idx : String) ≠ "init_risk" ++ toString idx :=
    append_right_ne _ (by decide)
  have h7 : ("who_" ++ toString idx : String) ≠ "res_risk" ++ toString idx :=
    append_right_ne _ (by decide)
  unfold rowOk lookupField
  dsimp only
  simp only [List.cons_append, List.nil_append]
  rw [List.find?_cons_of_neg _ (by simp only [beq_iff_eq]; exact h1),
      List.find?_cons_of_neg _ (by simp only [beq_iff_eq]; exact h2)]
  simp only [List.find?_append, find_ctrl_none h3, find_joined_none h4,
    find_joined_same, find_risk_none h6, find_risk_none h7]
  split <;> simp



theorem risk_mapGetD_default {k : String}
    (hk : k ∉ (["EH", "E", "H", "M", "L"] : List String)) :
    mapGetD risk_map k "0" = "0" := by
  simp only [List.mem_cons, List.not_mem_nil, or_false, not_or] at hk
  obtain ⟨n1, n2, n3, n4, n5⟩ := hk
  refine mapGetD_eq_default ?_
  intro p hp
  simp only [risk_map, List.mem_cons, List.not_mem_nil, or_false] at hp
  rcases hp with rfl | rfl | rfl | rfl | rfl
  exacts [Ne.symm n1, Ne.symm n2, Ne.symm n3, Ne.symm n4, Ne.symm n5]

/-- Claim C3: for every consumed subtask whose `initial_risk_level` (or
`residual_risk_level`) upper-cases to `EH` or `E` — i.e. is any letter-case
variant of `eh`/`e` — the per-row translation in `build_field_values`
yields ordinal code `"1"` (extremely high); for every non-empty code
outside `{EH, E, H, M, L}` (case-insensitive) it yields the default `"0"`;
and on a safe record the translation never raises (the row evaluates to
`.ok`). -/
theorem processSubtask_risk_translation (idx : Nat) (kvs : List (String × PyVal))
    (h : safeItem (.dict kvs) = true) :
    ∃ fs, processSubtask idx (.dict kvs) = .ok fs ∧
      ∀ code : String,
        (pyUpper (normalize_text (lookupD kvs "initial_risk_level" (PyVal.str ""))) = code →
          ((code = "EH" ∨ code = "E") →
            lookupField fs ("init_risk" ++ toString idx) = some "1") ∧
          (code ≠ "" → code ∉ (["EH", "E", "H", "M", "L"] : List String) →
            lookupField fs ("init_risk" ++ toString idx) = some "0")) ∧
        (pyUpper (normalize_text (lookupD kvs "residual_risk_level" (PyVal.str ""))) = code →
          ((code = "EH" ∨ code = "E") →
            lookupField fs ("res_risk" ++ toString idx) = some "1") ∧
          (code ≠ "" → code ∉ (["EH", "E", "H", "M", "L"] : List String) →
            lookupField fs ("res_risk" ++ toString idx) = some "0")) := by
  refine ⟨_, processSubtask_eq_rowOk idx kvs h, ?_⟩
  intro code
  constructor
  · intro hcode
    rw [rowOk_lookup_init, hcode]
    constructor
    · rintro (rfl | rfl) <;> decide
    · intro hne hmem
      rw [if_pos hne, risk_mapGetD_default hmem]
  · intro hcode
    rw [rowOk_lookup_res, hcode]
    constructor
    · rintro (rfl | rfl) <;> decide
    · intro hne hmem
      rw [if_pos hne, risk_mapGetD_default hmem]

/-- Claim C10: for every consumed subtask whose `initial_risk_level` (or
`residual_risk_level`) is absent, null, or normalizes to the empty string,
`build_field_values` produces no `init_riskN` (`res_riskN`) assignment at
all for that row, and the `"0"` fallback is emitted only for a non-empty
unrecognized code. -/
theorem processSubtask_risk_omitted (idx : Nat) (kvs : List (String × PyVal))
    (h : safeItem (.dict kvs) = true) :
    ∃ fs, processSubtask idx (.dict kvs) = .ok fs ∧
      (pyUpper (normalize_text (lookupD kvs "initial_risk_level" (PyVal.str ""))) = "" →
        lookupField fs ("init_risk" ++ toString idx) = none) ∧
      (pyUpper (normalize_text (lookupD kvs "residual_risk_level" (PyVal.str ""))) = "" →
        lookupField fs ("res_risk" ++ toString idx) = none) ∧
      (lookupField fs ("init_risk" ++ toString idx) = some "0" →
        pyUpper (normalize_text (lookupD kvs "initial_risk_level" (PyVal.str ""))) ≠ "" ∧
        pyUpper (normalize_text (lookupD kvs "initial_risk_level" (PyVal.str ""))) ∉
          (["EH", "E", "H", "M", "L"] : List String)) ∧
      (lookupField fs ("res_risk" ++ toString idx) = some "0" →
        pyUpper (normalize_text (lookupD kvs "residual_risk_level" (PyVal.str ""))) ≠ "" ∧
        pyUpper (normalize_text (lookupD kvs "residual_risk_level" (PyVal.str ""))) ∉
          (["EH", "E", "H", "M", "L"] : List String)) := by
  refine ⟨_, processSubtask_eq_rowOk idx kvs h, ?_, ?_, ?_, ?_⟩
  · intro hc
    rw [rowOk_lookup_init, hc]
    simp
  · intro hc
    rw [rowOk_lookup_res, hc]
    simp
  · rw [rowOk_lookup_init]
    intro hv
    by_cases hc :
        pyUpper (normalize_text (lookupD kvs "initial_risk_level" (PyVal.str ""))) ≠ ""
    · rw [if_pos hc] at hv
      refine ⟨hc, ?_⟩
      intro hmem
      have hv0 : mapGetD risk_map
          (pyUpper (normalize_text (lookupD kvs "initial_risk_level" (PyVal.str "")))) "0"
          = "0" := Option.some.inj hv
      simp only [List.mem_cons, List.not_mem_nil, or_false] at hmem
      rcases hmem with hm | hm | hm | hm | hm <;> rw [hm] at hv0 <;>
        exact absurd hv0 (by decide)
    · rw [if_neg hc] at hv
      exact absurd hv (by simp)
  · rw [rowOk_lookup_res]
    intro hv
    by_cases hc :
        pyUpper (normalize_text (lookupD kvs "residual_risk_level" (PyVal.str ""))) ≠ ""
    · rw [if_pos hc] at hv
      refine ⟨hc, ?_⟩
      intro hmem
      have hv0 : mapGetD risk_map
          (pyUpper (normalize_text (lookupD kvs "residual_risk_level" (PyVal.str "")))) "0"
          = "0" := Option.some.inj hv
      simp only [List.mem_cons, List.not_mem_nil, or_false] at hmem
      rcases hmem with hm | hm | hm | hm | hm <;> rw [hm] at hv0 <;>
        exact absurd hv0 (by decide)
    · rw [if_neg hc] at hv
      exact absurd hv (by simp)



/-- Counterexample to claim C8 as stated: a subtask whose `control.values`
is the empty list still receives a `control_1` assignment (the empty
string), overwriting the slot rather than leaving it untouched. -/
theorem control_assigned_on_empty_values :
    processSubtask 1 (.dict [("control", .dict [("values", .list [])])]) =
      .ok [("sub_1", ""), ("haz_1", ""), ("control_1", "")] ∧
    lookupField [("sub_1", ""), ("haz_1", ""), ("control_1", "")] "control_1" = some "" := by
  exact ⟨by decide, by decide⟩

/-- Claim C8 (amended): on every consumed subtask row the `how_N` and
`who_N` slots are left entirely untouched when their source value list is
empty/falsy and are assigned exactly when it is truthy; the `control_N`
slot, by contrast, is assigned exactly when the `control` entry is a
record (even if its value list is empty) and is untouched otherwise. -/
theorem processSubtask_slot_frame (idx : Nat) (kvs : List (String × PyVal))
    (h : safeItem (.dict kvs) = true) :
    ∃ fs, processSubtask idx (.dict kvs) = .ok fs ∧
      (truthy (valuesOf (dictGetD (pyOr (lookupD kvs "how_to_implement" (PyVal.dict []))
          (PyVal.dict [])) "how" PyVal.none)) = false →
        lookupField fs ("how_" ++ toString idx) = none) ∧
      (truthy (valuesOf (dictGetD (pyOr (lookupD kvs "how_to_implement" (PyVal.dict []))
          (PyVal.dict [])) "how" PyVal.none)) = true →
        (lookupField fs ("how_" ++ toString idx)).isSome = true) ∧
      (truthy (valuesOf (dictGetD (pyOr (lookupD kvs "how_to_implement" (PyVal.dict []))
          (PyVal.dict [])) "who" PyVal.none)) = false →
        lookupField fs ("who_" ++ toString idx) = none) ∧
      (truthy (valuesOf (dictGetD (pyOr (lookupD kvs "how_to_implement" (PyVal.dict []))
          (PyVal.dict [])) "who" PyVal.none)) = true →
        (lookupField fs ("who_" ++ toString idx)).isSome = true) ∧
      ((lookupD kvs "control" PyVal.none).isDict = false →
        lookupField fs ("control_" ++ toString idx) = none) ∧
      ((lookupD kvs "control" PyVal.none).isDict = true →
        (lookupField fs ("control_" ++ toString idx)).isSome = true) := by
  refine ⟨_, processSubtask_eq_rowOk idx kvs h, ?_, ?_, ?_, ?_, ?_, ?_⟩ <;> intro hc
  · rw [rowOk_lookup_how, if_neg (by simp [hc])]
  · rw [rowOk_lookup_how, if_pos hc]
    rfl
  · rw [rowOk_lookup_who, if_neg (by simp [hc])]
  · rw [rowOk_lookup_who, if_pos hc]
    rfl
  · rw [rowOk_lookup_control]
    cases hd : lookupD kvs "control" PyVal.none <;> simp_all [PyVal.isDict]
  · rw [rowOk_lookup_control]
    cases hd : lookupD kvs "control" PyVal.none <;> simp_all [PyVal.isDict]

/-- Counterexample to claim C7 as stated: for `control.values = ["a "]` the
rendered text is `"- a"`, not the claimed bullet-joined form `"- a "` —
the final `rstrip()` also removes trailing whitespace of the last value. -/
theorem control_text_rstrip_counterexample :
    processSubtask 1 (.dict [("control", .dict [("values", .list [.str "a "])])]) =
      .ok [("sub_1", ""), ("haz_1", ""), ("control_1", "- a")] ∧
    lookupField [("sub_1", ""), ("haz_1", ""), ("control_1", "- a")] "control_1" =
      some "- a" ∧
    ("- a" : String) ≠ "- a " := by
  exact ⟨by decide, by decide, by decide⟩

/-- Claim C7 (amended): for every consumed subtask whose `control.values`
is a non-empty list of strings, the rendered `control_N` text equals the
normalized values prefixed with `"- "` and joined by newlines, with
trailing whitespace (including the final newline) stripped from the end. -/
theorem processSubtask_control_text (idx : Nat) (kvs ckvs : List (String × PyVal))
    (strs : List String)
    (h : safeItem (.dict kvs) = true)
    (hc : lookupD kvs "control" PyVal.none = .dict ckvs)
    (hv : pyOr (lookupD ckvs "values" (.list [])) (.list [])
        = .list (strs.map PyVal.str))
    (hne : strs ≠ []) :
    ∃ fs, processSubtask idx (.dict kvs) = .ok fs ∧
      lookupField fs ("control_" ++ toString idx) =
        some (pyRstrip (String.intercalate "\n"
          (strs.map (fun s => "- " ++ normalize_text (.str s))))) := by
  refine ⟨_, processSubtask_eq_rowOk idx kvs h, ?_⟩
  rw [rowOk_lookup_control, hc]
  dsimp only
  rw [hv]
  simp only [iterElems, List.map_map]
  rw [show ((fun v => "- " ++ normalize_text v ++ "\n") ∘ PyVal.str)
      = ((fun s => s ++ "\n") ∘ (fun s => "- " ++ normalize_text (.str s)))
    from funext (fun s => rfl)]
  rw [← List.map_map]
  have hl : strs.map (fun s => "- " ++ normalize_text (.str s)) ≠ [] := by
    cases strs with
    | nil => exact absurd rfl hne
    | cons a as => simp
  rw [pyRstrip_join_eq_intercalate _ hl]

theorem processSubtask_control_text_witness :
    safeItem (.dict [("control", .dict [("values",
        .list [.str "Wear PPE", .str "Check equipment"])])]) = true ∧
    (∃ fs, processSubtask 1 (.dict [("control", .dict [("values",
        .list [.str "Wear PPE", .str "Check equipment"])])]) = .ok fs ∧
      lookupField fs ("control_" ++ toString 1) =
        some (pyRstrip (String.intercalate "\n"
          ((["Wear PPE", "Check equipment"] : List String).map
            (fun s => "- " ++ normalize_text (.str s)))))) ∧
    pyRstrip (String.intercalate "\n"
      ((["Wear PPE", "Check equipment"] : List String).map
        (fun s => "- " ++ normalize_text (.str s)))) = "- Wear PPE\n- Check equipment" := by
  refine ⟨by decide,
    processSubtask_control_text 1 _ _ ["Wear PPE", "Check equipment"] (by decide) rfl rfl
      (by decide), by decide⟩



theorem digitChar_lt_128 (n : Nat) : (Nat.digitChar n).toNat < 128 := by
  rcases Nat.lt_or_ge n 16 with h | h
  · interval_cases n <;> decide
  · unfold Nat.digitChar
    rw [if_neg (show ¬n = 0 by omega), if_neg (show ¬n = 1 by omega),
      if_neg (show ¬n = 2 by omega), if_neg (show ¬n = 3 by omega),
      if_neg (show ¬n = 4 by omega), if_neg (show ¬n = 5 by omega),
      if_neg (show ¬n = 6 by omega), if_neg (show ¬n = 7 by omega),
      if_neg (show ¬n = 8 by omega), if_neg (show ¬n = 9 by omega),
      if_neg (show ¬n = 10 by omega), if_neg (show ¬n = 11 by omega),
      if_neg (show ¬n = 12 by omega), if_neg (show ¬n = 13 by omega),
      if_neg (show ¬n = 14 by omega), if_neg (show ¬n = 15 by omega)]
    decide

theorem toDigitsCore_ascii (b : Nat) : ∀ (f n : Nat) (acc : List Char),
    (∀ c ∈ acc, c.toNat < 128) → ∀ c ∈ Nat.toDigitsCore b f n acc, c.toNat < 128
  | 0, _, _, hacc => hacc
  | f + 1, n, acc, hacc => by
    unfold Nat.toDigitsCore
    dsimp only
    split
    · intro c hc
      rcases List.mem_cons.mp hc with rfl | hc
      · exact digitChar_lt_128 _
      · exact hacc c hc
    · refine toDigitsCore_ascii b f (n / b) _ ?_
      intro c hc
      rcases List.mem_cons.mp hc with rfl | hc
      · exact digitChar_lt_128 _
      · exact hacc c hc

theorem natRepr_ascii (n : Nat) : ∀ c ∈ (Nat.repr n).data, c.toNat < 128 := by
  intro c hc
  exact toDigitsCore_ascii 10 (n + 1) n [] (by simp) c hc

theorem intToString_ascii (n : Int) : ∀ c ∈ (toString n).data, c.toNat < 128 := by
  cases n with
  | ofNat m => exact natRepr_ascii m
  | negSucc m =>
    intro c hc
    rw [show (toString (Int.negSucc m)) = "-" ++ Nat.repr (m + 1) from rfl,
      String.data_append] at hc
    rcases List.mem_append.mp hc with hc | hc
    · rcases List.mem_singleton.mp hc
      decide
    · exact natRepr_ascii _ c hc

theorem ascii_not_bad_space {c : Char} (h : c.toNat < 128) :
    (if c.toNat ∈ bad_spaces then ' ' else c) = c := by
  rw [if_neg]
  simp only [bad_spaces, List.mem_cons, List.not_mem_nil, or_false, not_or]
  omega

theorem normalize_text_int (n : Int) : normalize_text (.int n) = toString n := by
  show String.mk ((pyStrOf (.int n)).data.map
      (fun c => if c.toNat ∈ bad_spaces then ' ' else c)) = toString n
  rw [show pyStrOf (.int n) = toString n from rfl]
  refine String.ext ?_
  show ((toString n).data.map _) = (toString n).data
  rw [List.map_congr_left (fun c hc => ascii_not_bad_space (intToString_ascii n c hc))]
  exact List.map_id' _

/-- Claim C6: `normalize_text` is a pure total function: `None` maps to the
empty string; non-string scalars are coerced to their textual form; and on
strings every occurrence of the code points U+00A0, U+202F, U+2009, U+2011
is replaced by an ordinary space while every other character is preserved
unchanged in order (same length, pointwise image). -/
theorem normalize_text_spec :
    normalize_text PyVal.none = "" ∧
    (∀ n : Int, normalize_text (.int n) = toString n) ∧
    (∀ b : Bool, normalize_text (.bool b) = (if b then "True" else "False")) ∧
    (∀ s : String, (normalize_text (.str s)).length = s.length) ∧
    (∀ (s : String) (i : Nat),
      (normalize_text (.str s)).data[i]? =
        (s.data[i]?).map (fun c => if c.toNat ∈ bad_spaces then ' ' else c)) := by
  refine ⟨rfl, normalize_text_int, ?_, ?_, ?_⟩
  · intro b
    cases b <;> rfl
  · intro s
    show (String.mk (s.data.map _)).length = s.length
    show (s.data.map _).length = s.data.length
    rw [List.length_map]
  · intro s i
    show (s.data.map _)[i]? = _
    rw [List.getElem?_map]



/-- Counterexample to claim C1 as stated: an input record whose
`prepared_by` is the truthy non-record scalar `"x"` makes
`build_field_values` raise `AttributeError` (the `or {}` guard passes a
truthy scalar through and `.get` is then called on it). -/
theorem build_raises_on_scalar_prepared_by :
    build_field_values (.dict [("prepared_by", .str "x")]) = .error .attributeError := by
  decide

/-- Claim C1 (amended): `build_field_values` returns a mapping without
raising for every record in which each optional field is absent, null, or
falsy, and in which the unguarded nested containers (`prepared_by`,
`how_to_implement`, `subtasks`, and each truthy `values` entry) are of
their proper container type — while `subtask` and `control` may
additionally be arbitrary non-record scalars (they are isinstance-guarded). -/
theorem build_total_on_safe (d : PyVal) (h : safeDraw d = true) :
    (build_field_values d).isOk = true := by
  cases d with
  | dict kvs =>
    rw [build_eq kvs h]
    rfl
  | none => simp [safeDraw] at h
  | str s => simp [safeDraw] at h
  | int n => simp [safeDraw] at h
  | bool b => simp [safeDraw] at h
  | list xs => simp [safeDraw] at h

theorem build_total_on_safe_witness :
    safeDraw (.dict [("mission_task_and_description", PyVal.none),
      ("prepared_by", PyVal.none),
      ("subtasks", .list [.dict [("subtask", .int 5), ("control", .str "nope"),
        ("how_to_implement", PyVal.none), ("hazard", PyVal.none),
        ("initial_risk_level", PyVal.none)]]),
      ("overall_residual_risk_level", PyVal.none)]) = true ∧
    (build_field_values (.dict [("mission_task_and_description", PyVal.none),
      ("prepared_by", PyVal.none),
      ("subtasks", .list [.dict [("subtask", .int 5), ("control", .str "nope"),
        ("how_to_implement", PyVal.none), ("hazard", PyVal.none),
        ("initial_risk_level", PyVal.none)]]),
      ("overall_residual_risk_level", PyVal.none)])).isOk = true := by
  exact ⟨by decide, build_total_on_safe _ (by decide)⟩

/-- Claim C9: invoking `generate_draw_pdf` with a template path that does
not exist fails with a reported `FileNotFoundError` before any writing
occurs, and the file system is unchanged — in particular no output file is
produced at the destination path. -/
theorem generate_draw_pdf_missing_template (files : List String) (dd : PyVal) (out tpl : String)
    (h : tpl ∉ files) :
    generate_draw_pdf files dd out tpl = (.error (.fileNotFound tpl), files) := by
  unfold generate_draw_pdf
  rw [if_neg h]

theorem generate_draw_pdf_missing_template_witness :
    ("missing.pdf" ∉ (["DD-Form-2977.pdf"] : List String)) ∧
    generate_draw_pdf ["DD-Form-2977.pdf"] (.dict []) "out.pdf" "missing.pdf" =
      (.error (.fileNotFound "missing.pdf"), ["DD-Form-2977.pdf"]) := by
  exact ⟨by decide, generate_draw_pdf_missing_template _ _ _ _ (by decide)⟩



/-- Does the string name one of the 19 per-row subtask-name slots? -/
def isSubKey (k : String) : Bool :=
  (List.range' 1 MAX_ROWS).any (fun i => k == "sub_" ++ toString i)

theorem isSubKey_false_of_head (k : String) (h : k.data.head? ≠ some 's') :
    isSubKey k = false := by
  unfold isSubKey
  rw [List.any_eq_false]
  intro i _
  simp only [beq_iff_eq]
  intro he
  exact h (by rw [he, head_append _ rfl])

theorem isSubKey_sub_true (idx : Nat) (h1 : 1 ≤ idx) (h2 : idx ≤ MAX_ROWS) :
    isSubKey ("sub_" ++ toString idx) = true := by
  unfold isSubKey
  rw [List.any_eq_true]
  refine ⟨idx, ⟨?_, by simp⟩⟩
  exact List.mem_range'.mpr ⟨idx - 1, by omega, by omega⟩

theorem rowOk_filter_sub (idx : Nat) (ikvs : List (String × PyVal))
    (h1 : 1 ≤ idx) (h2 : idx ≤ MAX_ROWS) :
    (rowOk idx ikvs).filter (fun p => isSubKey p.1) =
      [("sub_" ++ toString idx,
        normalize_text (sub_name_of (lookupD ikvs "subtask" PyVal.none)))] := by
  have hseg : ∀ (l : List (String × String)) (k : String),
      (∀ e ∈ l, e.1 = k) → isSubKey k = false →
      l.filter (fun p => isSubKey p.1) = [] := by
    intro l k hall hk
    refine List.filter_eq_nil_iff.mpr ?_
    intro e he hC
    have hC' : isSubKey e.1 = true := hC
    rw [hall e he, hk] at hC'
    exact Bool.false_ne_true hC'
  unfold rowOk
  dsimp only
  simp only [List.cons_append, List.nil_append, List.filter_cons, List.filter_append]
  rw [isSubKey_sub_true idx h1 h2,
    isSubKey_false_of_head ("haz_" ++ toString idx) (by rw [head_append _ rfl]; decide),
    hseg _ ("control_" ++ toString idx) (fun e he => ctrlFieldsOk_key he)
      (isSubKey_false_of_head _ (by rw [head_append _ rfl]; decide)),
    hseg _ ("how_" ++ toString idx) (fun e he => joinedFieldsOk_key he)
      (isSubKey_false_of_head _ (by rw [head_append _ rfl]; decide)),
    hseg _ ("who_" ++ toString idx) (fun e he => joinedFieldsOk_key he)
      (isSubKey_false_of_head _ (by rw [head_append _ rfl]; decide)),
    hseg _ ("init_risk" ++ toString idx) (fun e he => riskField_key he)
      (isSubKey_false_of_head _ (by rw [head_append _ rfl]; decide)),
    hseg _ ("res_risk" ++ toString idx) (fun e he => riskField_key he)
      (isSubKey_false_of_head _ (by rw [head_append _ rfl]; decide))]
  simp



theorem rowsOk_filter_sub : ∀ (items : List PyVal) (idx : Nat), 1 ≤ idx →
    (∀ it ∈ items.take (MAX_ROWS + 1 - idx), safeItem it = true) →
    (rowsOk idx items).filter (fun p => isSubKey p.1) =
      (items.take (MAX_ROWS + 1 - idx)).mapIdx (fun i it =>
        ("sub_" ++ toString (idx + i),
         normalize_text (sub_name_of (dictGetD it "subtask" PyVal.none))))
  | [], idx, _, _ => by simp [rowsOk]
  | it :: rest, idx, h1, hsafe => by
    unfold rowsOk
    by_cases hidx : idx > MAX_ROWS
    · rw [if_pos hidx, show MAX_ROWS + 1 - idx = 0 by omega]
      simp
    · rw [if_neg hidx]
      have hcons : (it :: rest).take (MAX_ROWS + 1 - idx)
          = it :: rest.take (MAX_ROWS - idx) := by
        rw [show MAX_ROWS + 1 - idx = (MAX_ROWS - idx) + 1 by omega, List.take_succ_cons]
      have hsafeit : safeItem it = true :=
        hsafe it (by rw [hcons]; exact List.mem_cons_self _ _)
      have hrest : ∀ x ∈ rest.take (MAX_ROWS + 1 - (idx + 1)), safeItem x = true := by
        intro x hx
        refine hsafe x ?_
        rw [hcons]
        refine List.mem_cons_of_mem _ ?_
        rw [show MAX_ROWS + 1 - (idx + 1) = MAX_ROWS - idx by omega] at hx
        exact hx
      obtain ⟨ikvs, rfl⟩ : ∃ ikvs, it = .dict ikvs := by
        cases it <;> simp_all [safeItem]
      rw [hcons, List.filter_append]
      simp only [rowOkItem]
      rw [rowOk_filter_sub idx ikvs h1 (by omega),
        rowsOk_filter_sub rest (idx + 1) (by omega) hrest,
        show MAX_ROWS + 1 - (idx + 1) = MAX_ROWS - idx by omega,
        List.mapIdx_cons]
      have hfun : (fun (i : Nat) (it : PyVal) => ("sub_" ++ toString (idx + 1 + i),
            normalize_text (sub_name_of (dictGetD it "subtask" PyVal.none))))
          = (fun (i : Nat) (it : PyVal) => ("sub_" ++ toString (idx + (i + 1)),
            normalize_text (sub_name_of (dictGetD it "subtask" PyVal.none)))) := by
        funext i it
        rw [show idx + 1 + i = idx + (i + 1) by omega]
      rw [hfun]
      simp [dictGetD]



/-- Claim C2: the `sub_N` row assignments produced by `build_field_values`
are exactly those for the first `min(length, MAX_ROWS)` subtasks, taken
from the front of the input list in order; subtasks beyond the capacity
contribute no assignments and cause no error. -/
theorem build_row_capacity (kvs : List (String × PyVal)) (items : List PyVal)
    (hsub : pyOr (lookupD kvs "subtasks" (PyVal.list [])) (PyVal.list []) = .list items)
    (h : safeDraw (.dict kvs) = true) :
    ∃ fs, build_field_values (.dict kvs) = .ok fs ∧
      fs.filter (fun p => isSubKey p.1) =
        (items.take MAX_ROWS).mapIdx (fun i it =>
          ("sub_" ++ toString (1 + i),
           normalize_text (sub_name_of (dictGetD it "subtask" PyVal.none)))) ∧
      (fs.filter (fun p => isSubKey p.1)).length = min items.length MAX_ROWS := by
  have hsafe : ∀ it ∈ items.take (MAX_ROWS + 1 - 1), safeItem it = true := by
    have h' := h
    unfold safeDraw at h'
    simp only [Bool.and_eq_true] at h'
    obtain ⟨-, hsubs⟩ := h'
    rw [hsub] at hsubs
    intro it hit
    refine List.all_eq_true.mp hsubs it ?_
    simpa using hit
  have hrows : rowItemsOf kvs = items := by
    unfold rowItemsOf
    rw [hsub]
    rfl
  have hfil : (headerFields kvs ++ rowsOk 1 (rowItemsOf kvs)
      ++ [("overall_res", overallResOf kvs), ("xapp", xappOf kvs)]).filter
        (fun p => isSubKey p.1) =
      (items.take MAX_ROWS).mapIdx (fun i it =>
        ("sub_" ++ toString (1 + i),
         normalize_text (sub_name_of (dictGetD it "subtask" PyVal.none)))) := by
    rw [List.filter_append, List.filter_append]
    have hhdr : (headerFields kvs).filter (fun p => isSubKey p.1) = [] := by
      refine List.filter_eq_nil_iff.mpr ?_
      intro e he hC
      have hC' : isSubKey e.1 = true := hC
      unfold headerFields at he
      simp only [List.mem_cons, List.not_mem_nil, or_false] at he
      rcases he with rfl | rfl | rfl | rfl | rfl | rfl | rfl | rfl | rfl | rfl | rfl <;>
        (dsimp only at hC'; exact absurd hC' (by decide))
    have htail : ([("overall_res", overallResOf kvs), ("xapp", xappOf kvs)]).filter
        (fun p => isSubKey p.1) = [] := by
      refine List.filter_eq_nil_iff.mpr ?_
      intro e he hC
      have hC' : isSubKey e.1 = true := hC
      simp only [List.mem_cons, List.not_mem_nil, or_false] at he
      rcases he with rfl | rfl <;> (dsimp only at hC'; exact absurd hC' (by decide))
    rw [hhdr, htail, hrows, rowsOk_filter_sub items 1 (by omega) hsafe,
      show MAX_ROWS + 1 - 1 = MAX_ROWS by omega]
    simp
  refine ⟨_, build_eq kvs h, hfil, ?_⟩
  rw [hfil, List.length_mapIdx, List.length_take]
  omega




/-- Witness for C2: 25 input subtasks yield exactly 19 rows, in order. -/
theorem build_row_capacity_witness :
    pyOr (lookupD [("subtasks", PyVal.list (List.replicate 25 (PyVal.dict [])))]
        "subtasks" (PyVal.list [])) (PyVal.list [])
      = PyVal.list (List.replicate 25 (PyVal.dict [])) ∧
    safeDraw (.dict [("subtasks", PyVal.list (List.replicate 25 (PyVal.dict [])))]) = true ∧
    (∃ fs, build_field_values
        (.dict [("subtasks", PyVal.list (List.replicate 25 (PyVal.dict [])))]) = .ok fs ∧
      fs.filter (fun p => isSubKey p.1) =
        ((List.replicate 25 (PyVal.dict [])).take MAX_ROWS).mapIdx (fun i it =>
          ("sub_" ++ toString (1 + i),
           normalize_text (sub_name_of (dictGetD it "subtask" PyVal.none)))) ∧
      (fs.filter (fun p => isSubKey p.1)).length =
        min (List.replicate 25 (PyVal.dict [])).length MAX_ROWS) ∧
    min (List.replicate 25 (PyVal.dict [])).length MAX_ROWS = 19 := by
  exact ⟨rfl, by decide, build_row_capacity _ _ rfl (by decide), by decide⟩

/-- Witness for C3: a subtask with `initial_risk_level = "eh"` and
`residual_risk_level = "X"`. -/
theorem processSubtask_risk_translation_witness :
    safeItem (.dict [("initial_risk_level", PyVal.str "eh"),
      ("residual_risk_level", PyVal.str "X")]) = true ∧
    (∃ fs, processSubtask 1 (.dict [("initial_risk_level", PyVal.str "eh"),
        ("residual_risk_level", PyVal.str "X")]) = .ok fs ∧
      ∀ code : String,
        (pyUpper (normalize_text (lookupD [("initial_risk_level", PyVal.str "eh"),
            ("residual_risk_level", PyVal.str "X")] "initial_risk_level" (PyVal.str "")))
            = code →
          ((code = "EH" ∨ code = "E") →
            lookupField fs ("init_risk" ++ toString 1) = some "1") ∧
          (code ≠ "" → code ∉ (["EH", "E", "H", "M", "L"] : List String) →
            lookupField fs ("init_risk" ++ toString 1) = some "0")) ∧
        (pyUpper (normalize_text (lookupD [("initial_risk_level", PyVal.str "eh"),
            ("residual_risk_level", PyVal.str "X")] "residual_risk_level" (PyVal.str "")))
            = code →
          ((code = "EH" ∨ code = "E") →
            lookupField fs ("res_risk" ++ toString 1) = some "1") ∧
          (code ≠ "" → code ∉ (["EH", "E", "H", "M", "L"] : List String) →
            lookupField fs ("res_risk" ++ toString 1) = some "0"))) := by
  exact ⟨by decide, processSubtask_risk_translation 1 _ (by decide)⟩

/-- Witness for C4: `overall_residual_risk_level = "m"` on an otherwise
empty record. -/
theorem build_overall_res_mapping_witness :
    safeDraw (.dict [("overall_residual_risk_level", PyVal.str "m")]) = true ∧
    (∃ fs, build_field_values (.dict [("overall_residual_risk_level", PyVal.str "m")])
        = .ok fs ∧
      lookupField fs "overall_res"
        = some (overallResOf [("overall_residual_risk_level", PyVal.str "m")]) ∧
      overallResOf [("overall_residual_risk_level", PyVal.str "m")]
        ∈ (["EH", "H", "M", "L"] : List String) ∧
      ∀ code : String,
        pyUpper (normalize_text (lookupD [("overall_residual_risk_level", PyVal.str "m")]
          "overall_residual_risk_level" (PyVal.str ""))) = code →
        ((code = "EH" ∨ code = "E") →
          overallResOf [("overall_residual_risk_level", PyVal.str "m")] = "EH") ∧
        (code = "H" → overallResOf [("overall_residual_risk_level", PyVal.str "m")] = "H") ∧
        (code = "M" → overallResOf [("overall_residual_risk_level", PyVal.str "m")] = "M") ∧
        (code = "L" → overallResOf [("overall_residual_risk_level", PyVal.str "m")] = "L") ∧
        (code = "" → overallResOf [("overall_residual_risk_level", PyVal.str "m")] = "L") ∧
        (code ∉ (["EH", "E", "H", "M", "L"] : List String) →
          overallResOf [("overall_residual_risk_level", PyVal.str "m")] = "L")) := by
  exact ⟨by decide, build_overall_res_mapping _ (by decide)⟩

/-- Witness for C5: `approval_decision = "Approved"` on an otherwise
empty record. -/
theorem build_xapp_mapping_witness :
    safeDraw (.dict [("approval_decision", PyVal.str "Approved")]) = true ∧
    (∃ fs, build_field_values (.dict [("approval_decision", PyVal.str "Approved")])
        = .ok fs ∧
      lookupField fs "xapp" = some (xappOf [("approval_decision", PyVal.str "Approved")]) ∧
      ∀ word : String,
        pyLower (normalize_text (lookupD [("approval_decision", PyVal.str "Approved")]
          "approval_decision" (PyVal.str ""))) = word →
        ((word = "approve" ∨ word = "approved" ∨ word = "app") →
          xappOf [("approval_decision", PyVal.str "Approved")] = "app") ∧
        ((word = "disapprove" ∨ word = "disapproved" ∨ word = "dis") →
          xappOf [("approval_decision", PyVal.str "Approved")] = "dis") ∧
        (word ∉ (["approve", "approved", "app", "disapprove", "disapproved", "dis"] :
            List String) →
          xappOf [("approval_decision", PyVal.str "Approved")] = "dis")) := by
  exact ⟨by decide, build_xapp_mapping _ (by decide)⟩

/-- Witness for C8: `how.values` empty (slot untouched), `who.values`
non-empty (slot assigned), `control` absent (slot untouched). -/
theorem processSubtask_slot_frame_witness :
    safeItem (.dict [("how_to_implement", .dict [("how", .dict [("values", .list [])]),
      ("who", .dict [("values", .list [.str "crew"])])])]) = true ∧
    (∃ fs, processSubtask 1 (.dict [("how_to_implement",
        .dict [("how", .dict [("values", .list [])]),
          ("who", .dict [("values", .list [.str "crew"])])])]) = .ok fs ∧
      (truthy (valuesOf (dictGetD (pyOr (lookupD [("how_to_implement",
          .dict [("how", .dict [("values", .list [])]),
            ("who", .dict [("values", .list [.str "crew"])])])]
          "how_to_implement" (PyVal.dict [])) (PyVal.dict [])) "how" PyVal.none)) = false →
        lookupField fs ("how_" ++ toString 1) = none) ∧
      (truthy (valuesOf (dictGetD (pyOr (lookupD [("how_to_implement",
          .dict [("how", .dict [("values", .list [])]),
            ("who", .dict [("values", .list [.str "crew"])])])]
          "how_to_implement" (PyVal.dict [])) (PyVal.dict [])) "how" PyVal.none)) = true →
        (lookupField fs ("how_" ++ toString 1)).isSome = true) ∧
      (truthy (valuesOf (dictGetD (pyOr (lookupD [("how_to_implement",
          .dict [("how", .dict [("values", .list [])]),
            ("who", .dict [("values", .list [.str "crew"])])])]
          "how_to_implement" (PyVal.dict [])) (PyVal.dict [])) "who" PyVal.none)) = false →
        lookupField fs ("who_" ++ toString 1) = none) ∧
      (truthy (valuesOf (dictGetD (pyOr (lookupD [("how_to_implement",
          .dict [("how", .dict [("values", .list [])]),
            ("who", .dict [("values", .list [.str "crew"])])])]
          "how_to_implement" (PyVal.dict [])) (PyVal.dict [])) "who" PyVal.none)) = true →
        (lookupField fs ("who_" ++ toString 1)).isSome = true) ∧
      ((lookupD [("how_to_implement", .dict [("how", .dict [("values", .list [])]),
          ("who", .dict [("values", .list [.str "crew"])])])]
          "control" PyVal.none).isDict = false →
        lookupField fs ("control_" ++ toString 1) = none) ∧
      ((lookupD [("how_to_implement", .dict [("how", .dict [("values", .list [])]),
          ("who", .dict [("values", .list [.str "crew"])])])]
          "control" PyVal.none).isDict = true →
        (lookupField fs ("control_" ++ toString 1)).isSome = true)) := by
  exact ⟨by decide, processSubtask_slot_frame 1 _ (by decide)⟩

/-- Witness for C10: a subtask whose `initial_risk_level` is absent and
whose `residual_risk_level` is null. -/
theorem processSubtask_risk_omitted_witness :
    safeItem (.dict [("residual_risk_level", PyVal.none)]) = true ∧
    (∃ fs, processSubtask 1 (.dict [("residual_risk_level", PyVal.none)]) = .ok fs ∧
      (pyUpper (normalize_text (lookupD [("residual_risk_level", PyVal.none)]
          "initial_risk_level" (PyVal.str ""))) = "" →
        lookupField fs ("init_risk" ++ toString 1) = none) ∧
      (pyUpper (normalize_text (lookupD [("residual_risk_level", PyVal.none)]
          "residual_risk_level" (PyVal.str ""))) = "" →
        lookupField fs ("res_risk" ++ toString 1) = none) ∧
      (lookupField fs ("init_risk" ++ toString 1) = some "0" →
        pyUpper (normalize_text (lookupD [("residual_risk_level", PyVal.none)]
          "initial_risk_level" (PyVal.str ""))) ≠ "" ∧
        pyUpper (normalize_text (lookupD [("residual_risk_level", PyVal.none)]
          "initial_risk_level" (PyVal.str ""))) ∉
          (["EH", "E", "H", "M", "L"] : List String)) ∧
      (lookupField fs ("res_risk" ++ toString 1) = some "0" →
        pyUpper (normalize_text (lookupD [("residual_risk_level", PyVal.none)]
          "residual_risk_level" (PyVal.str ""))) ≠ "" ∧
        pyUpper (normalize_text (lookupD [("residual_risk_level", PyVal.none)]
          "residual_risk_level" (PyVal.str ""))) ∉
          (["EH", "E", "H", "M", "L"] : List String))) := by
  exact ⟨by decide, processSubtask_risk_omitted 1 _ (by decide)⟩

end Draw
